import Mathlib

/-!
Verification of the cascading-extinction core (`cascading_extinction.py`,
class `ExtincaoEmCascata`) of the food-web-network-sciences repository.

The embedding models the igraph working graph as a list of vertex names
(in igraph index order) together with a list of directed edges given by
endpoint names (source = prey, target = predator).  Species names are
assumed distinct (as in the repository's GraphML data); under that
assumption deleting a vertex by name coincides with igraph's
`delete_vertices` by index, and in-degree by name coincides with igraph's
per-vertex in-degree.  Python dicts are modelled as association lists with
in-place update of the first matching key and append for fresh keys, which
reproduces dict insertion-order semantics.  The unbounded `while` loops of
the cascade are modelled with a fuel argument; the termination theorem
below shows that fuel equal to the current node count already reaches the
fixed point, so the fuel-based definition agrees with the Python loop.
Float arithmetic (robustness, diet loss) is modelled exactly over ℚ.
-/

/-- Directed graph with named vertices: `vs` lists the vertex names in
igraph index order, `es` the directed edges (source name, target name). -/
structure Graph where
  vs : List String
  es : List (String × String)
deriving DecidableEq, Repr

/-- Number of incoming edges of the vertex named `n` (igraph `v.indegree()`). -/
def indegree (g : Graph) (n : String) : Nat :=
  (g.es.filter (fun e => e.2 = n)).length

/-- Names adjacent to `n` in either direction (igraph `neighbors(..., mode='all')`,
with multiplicity; callers only use it as a set). -/
def neighborsOf (g : Graph) (n : String) : List String :=
  (g.es.filterMap (fun e => if e.1 = n then some e.2 else none))
    ++ (g.es.filterMap (fun e => if e.2 = n then some e.1 else none))

/-- Removal of the vertex named `n` and all incident edges
(igraph `delete_vertices`). -/
def deleteVertex (g : Graph) (n : String) : Graph :=
  ⟨g.vs.erase n, g.es.filter (fun e => ¬(e.1 = n) ∧ ¬(e.2 = n))⟩

/-- Node status tags: `'vivo'`, `'extinto_primario'`, `'extinto_secundario'`,
`'afetado'` in the source. -/
inductive Status where
  | vivo
  | extintoPrimario
  | extintoSecundario
  | afetado
deriving DecidableEq, Repr

/-- The node-state table `estados_nos`: a Python dict from species name to
status, modelled as an association list in dict insertion order. -/
abbrev StMap := List (String × Status)

/-- Dict lookup `estados_nos.get(nome)`. -/
def getStatus : StMap → String → Option Status
  | [], _ => none
  | p :: resto, k => if p.1 = k then some p.2 else getStatus resto k

/-- Dict update `estados_nos[nome] = status`: overwrite the first matching
key in place, append when the key is fresh. -/
def setStatus : StMap → String → Status → StMap
  | [], k, v => [(k, v)]
  | p :: resto, k, v => if p.1 = k then (k, v) :: resto else p :: setStatus resto k v

/-- Insertion into a Python set of names, ignoring duplicates
(iteration order of the set is never observable in the core). -/
def insereNome (l : List String) (n : String) : List String :=
  if n ∈ l then l else l ++ [n]

/-- Set-union of a list of names into a name set. -/
def insereTodos (l : List String) (ns : List String) : List String :=
  ns.foldl insereNome l

/-- Basal species of a graph: names of in-degree-0 vertices
(`__init__` lines 32-36 and `reset` lines 59-63). -/
def basaisOf (g : Graph) : List String :=
  g.vs.filter (fun n => indegree g n = 0)

/-- All-alive node-state table built by the constructor loop
(lines 44-47). -/
def allVivo (g : Graph) : StMap :=
  g.vs.foldl (fun m n => setStatus m n .vivo) []

/-- Extinction-event primary field: a single name for `remove_especie`,
a list of names for `remover_grupo_simultaneo`. -/
inductive Primario where
  | um (nome : String)
  | grupo (nomes : List String)
deriving DecidableEq, Repr

/-- Extinction event record (`evento_extincao` dict, lines 154-161 and 283-290). -/
structure Evento where
  passo : Nat
  extincaoPrimaria : Primario
  extincoesSecundarias : List String
  extincoesTotais : Nat
  extintos : List String
  restantes : Nat
deriving DecidableEq, Repr

/-- Full simulation state of an `ExtincaoEmCascata` object. -/
structure Sim where
  grafoOriginal : Graph
  grafo : Graph
  especiesBasais : List String
  historicoExtincoes : List Evento
  passoAtual : Nat
  estadosNos : StMap
  historicoEstados : List StMap
deriving DecidableEq, Repr

/-- Constructor `ExtincaoEmCascata.__init__` (graph copy, basal set,
empty histories, all-alive state table). -/
def initSim (g : Graph) : Sim :=
  { grafoOriginal := g
    grafo := g
    especiesBasais := basaisOf g
    historicoExtincoes := []
    passoAtual := 0
    estadosNos := allVivo g
    historicoEstados := [] }

/-- Method `reset` (lines 52-71): fresh copy of the original graph,
recomputed basal set, cleared histories and state table. -/
def resetSim (sim : Sim) : Sim :=
  { grafoOriginal := sim.grafoOriginal
    grafo := sim.grafoOriginal
    especiesBasais := basaisOf sim.grafoOriginal
    historicoExtincoes := []
    passoAtual := 0
    estadosNos := allVivo sim.grafoOriginal
    historicoEstados := [] }

/-- Intermediate state of the cascade loop: current working graph, state
table, affected-neighbor set, this round's removal candidates and the
cumulative secondary-extinction list. -/
structure CascSt where
  g : Graph
  estados : StMap
  vizinhos : List String
  aRemover : List String
  secundarios : List String
deriving DecidableEq, Repr

/-- One vertex of the rescanning loop (lines 131-141, resp. 246-252 and
267-273): skip basal species, in grouped-removal rounds additionally skip
nodes whose status is not `'vivo'`, and collect any remaining vertex whose
in-degree dropped to 0 as a secondary extinction. -/
def escaneiaPasso (checaVivo : Bool) (basais : List String) (g : Graph)
    (acc : List String × StMap) (n : String) : List String × StMap :=
  if n ∈ basais then acc
  else if checaVivo && !(getStatus acc.2 n == some Status.vivo) then acc
  else if indegree g n = 0 then (acc.1 ++ [n], setStatus acc.2 n .extintoSecundario)
  else acc

/-- Full rescan of the remaining vertices after a deletion batch. -/
def escaneia (checaVivo : Bool) (basais : List String) (g : Graph)
    (estados : StMap) : List String × StMap :=
  g.vs.foldl (escaneiaPasso checaVivo basais g) ([], estados)

/-- One iteration of the cascade `while` loop (lines 115-141 / 255-273):
record the neighbors of this round's removals, batch-delete them, then
rescan for new in-degree-0 non-basal vertices. -/
def rodada (checaVivo : Bool) (basais : List String) (st : CascSt) : CascSt :=
  let vz := st.aRemover.foldl (fun acc n => insereTodos acc (neighborsOf st.g n)) st.vizinhos
  let g1 := st.aRemover.foldl deleteVertex st.g
  let novos := escaneia checaVivo basais g1 st.estados
  { g := g1
    estados := novos.2
    vizinhos := vz
    aRemover := novos.1
    secundarios := st.secundarios ++ novos.1 }

/-- Cascade fixed-point loop with explicit fuel; the termination theorem
shows fuel equal to the node count reaches the fixed point, so this equals
the unbounded Python `while especies_a_remover:` loop. -/
def cascata (checaVivo : Bool) (basais : List String) : Nat → CascSt → CascSt
  | 0, st => st
  | fuel + 1, st =>
    if st.aRemover = [] then st else cascata checaVivo basais fuel (rodada checaVivo basais st)

/-- The two `ValueError`s of `remove_especie` (lines 93 and 96). -/
inductive ErroRemocao where
  | naoEncontrada (nome : String)
  | indiceInvalido (indice : Nat)
deriving DecidableEq, Repr

/-- Identifier resolution of `remove_especie` (lines 88-97): a name is
looked up in the current working graph, an index must be in range. -/
def resolveIdent (g : Graph) : String ⊕ Nat → Except ErroRemocao String
  | .inl nome => if nome ∈ g.vs then .ok nome else .error (.naoEncontrada nome)
  | .inr i => if h : i < g.vs.length then .ok (g.vs.get ⟨i, h⟩) else .error (.indiceInvalido i)

/-- Affected-marking loop (lines 144-147 / 276-278): every recorded
neighbor that is still `'vivo'` becomes `'afetado'`. -/
def marcaAfetados (vizinhos : List String) (estados : StMap) : StMap :=
  vizinhos.foldl
    (fun m n => if getStatus m n == some Status.vivo then setStatus m n .afetado else m)
    estados

/-- Body of `remove_especie` after successful resolution (lines 99-165):
mark the species primary-extinct, run the cascade, mark affected survivors,
snapshot the state table, and append the extinction event. -/
def removeEspecieNucleo (sim : Sim) (nome : String) : Sim × Evento :=
  let vizinhos0 := insereTodos [] (neighborsOf sim.grafo nome)
  let estados0 := setStatus sim.estadosNos nome .extintoPrimario
  let res := cascata false sim.especiesBasais sim.grafo.vs.length
    { g := sim.grafo
      estados := estados0
      vizinhos := vizinhos0
      aRemover := [nome]
      secundarios := [] }
  let estadosF := marcaAfetados res.vizinhos res.estados
  let ev : Evento :=
    { passo := sim.passoAtual + 1
      extincaoPrimaria := .um nome
      extincoesSecundarias := res.secundarios
      extincoesTotais := 1 + res.secundarios.length
      extintos := nome :: res.secundarios
      restantes := res.g.vs.length }
  ({ sim with
      grafo := res.g
      estadosNos := estadosF
      passoAtual := sim.passoAtual + 1
      historicoEstados := sim.historicoEstados ++ [estadosF]
      historicoExtincoes := sim.historicoExtincoes ++ [ev] }, ev)

/-- Method `remove_especie` (lines 73-165): resolve the identifier (failing
before any mutation), then run the removal body. -/
def removeEspecie (sim : Sim) (ident : String ⊕ Nat) : Except ErroRemocao (Sim × Evento) :=
  match resolveIdent sim.grafo ident with
  | .error e => .error e
  | .ok nome => .ok (removeEspecieNucleo sim nome)

/-- Warning printed by `remover_grupo_simultaneo` for an unresolvable name
(line 210). -/
def avisoNaoEncontrada (nome : String) : String :=
  "Aviso: Especie nao encontrada ou ja removida: " ++ nome

/-- Resolution loop of `remover_grupo_simultaneo` (lines 203-216): names not
present produce a printed warning and are skipped; out-of-range indices are
skipped with no warning at all (the `else` branch of line 211 has no
warning case). -/
def resolvePassoGrupo (g : Graph) (acc : List String × List String) :
    String ⊕ Nat → List String × List String
  | .inl nome =>
    if nome ∈ g.vs then (acc.1 ++ [nome], acc.2)
    else (acc.1, acc.2 ++ [avisoNaoEncontrada nome])
  | .inr i =>
    if h : i < g.vs.length then (acc.1 ++ [g.vs.get ⟨i, h⟩], acc.2) else acc

/-- Accumulated (resolved names, printed warnings) of the resolution loop. -/
def resolveGrupo (g : Graph) (ids : List (String ⊕ Nat)) : List String × List String :=
  ids.foldl (resolvePassoGrupo g) ([], [])

/-- Body of `remover_grupo_simultaneo` on the resolved primary names
(lines 221-293): mark and batch-delete the primaries, run the first rescan
and then the cascade loop (which in this method also checks the `'vivo'`
status), mark affected survivors, snapshot, and append the event. -/
def removerGrupoNucleo (sim : Sim) (nomes : List String) : Sim × Evento :=
  let marcados := nomes.foldl
    (fun acc n =>
      (setStatus acc.1 n .extintoPrimario, insereTodos acc.2 (neighborsOf sim.grafo n)))
    (sim.estadosNos, ([] : List String))
  let g1 := nomes.foldl deleteVertex sim.grafo
  let primeira := escaneia false sim.especiesBasais g1 marcados.1
  let res := cascata true sim.especiesBasais g1.vs.length
    { g := g1
      estados := primeira.2
      vizinhos := marcados.2
      aRemover := primeira.1
      secundarios := primeira.1 }
  let estadosF := marcaAfetados res.vizinhos res.estados
  let ev : Evento :=
    { passo := sim.passoAtual + 1
      extincaoPrimaria := .grupo nomes
      extincoesSecundarias := res.secundarios
      extincoesTotais := nomes.length + res.secundarios.length
      extintos := nomes ++ res.secundarios
      restantes := res.g.vs.length }
  ({ sim with
      grafo := res.g
      estadosNos := estadosF
      passoAtual := sim.passoAtual + 1
      historicoEstados := sim.historicoEstados ++ [estadosF]
      historicoExtincoes := sim.historicoExtincoes ++ [ev] }, ev)

/-- Method `remover_grupo_simultaneo` (lines 189-293): resolve all
identifiers against the current graph (collecting warnings for unresolvable
names and silently dropping out-of-range indices), return the
`{'erro': ...}` result when nothing resolved, and otherwise run the
removal body.  Returns the resulting simulation, the event or error
result, and the list of printed warnings. -/
def removerGrupoSimultaneo (sim : Sim) (ids : List (String ⊕ Nat)) :
    Sim × Except String Evento × List String :=
  let resol := resolveGrupo sim.grafo ids
  if resol.1 = [] then (sim, .error "Nenhuma especie valida para remover", resol.2)
  else
    let nuc := removerGrupoNucleo sim resol.1
    (nuc.1, .ok nuc.2, resol.2)

/-- Operations a caller can perform on a simulation; `remover` with a
resolution failure leaves the state untouched (the `raise` happens before
any mutation), matching `simular_sequencia`, which catches and skips. -/
inductive Op where
  | remover (ident : String ⊕ Nat)
  | removerGrupo (ids : List (String ⊕ Nat))
  | reiniciar
deriving DecidableEq, Repr

/-- State effect of one operation. -/
def execOp (sim : Sim) : Op → Sim
  | .remover ident =>
    match removeEspecie sim ident with
    | .ok r => r.1
    | .error _ => sim
  | .removerGrupo ids => (removerGrupoSimultaneo sim ids).1
  | .reiniciar => resetSim sim

/-- Simulation state after a sequence of operations on a fresh simulation. -/
def execOps (g : Graph) (ops : List Op) : Sim :=
  ops.foldl execOp (initSim g)

/-- Method `get_robustez` (lines 330-339), exact over ℚ. -/
def getRobustez (sim : Sim) : ℚ :=
  if 0 < sim.grafoOriginal.vs.length then
    (sim.grafo.vs.length : ℚ) / (sim.grafoOriginal.vs.length : ℚ)
  else 0

/-- Rounding to 3 decimal digits, modelling Python `round(x, 3)` exactly
over ℚ (tie behaviour of binary floats is not observable in the claims). -/
def round3 (q : ℚ) : ℚ :=
  ((round (q * 1000) : ℤ) : ℚ) / 1000

/-- The `graus_originais` dict of `calcular_perda_dieta` (lines 306-309)
with its `.get(nome, 0)` default. -/
def grausOriginais (sim : Sim) (n : String) : Nat :=
  if n ∈ sim.grafoOriginal.vs then indegree sim.grafoOriginal n else 0

/-- Method `calcular_perda_dieta` (lines 295-328): for every non-basal
survivor, `1 - current/original` in-degree rounded to 3 digits, or `0.0`
when the original in-degree was 0. -/
def calcularPerdaDieta (sim : Sim) : List (String × ℚ) :=
  (sim.grafo.vs.filter (fun n => n ∉ sim.especiesBasais)).map
    (fun n =>
      let grauAtual := indegree sim.grafo n
      let grauOriginal := grausOriginais sim n
      if 0 < grauOriginal then
        (n, round3 (1 - (grauAtual : ℚ) / (grauOriginal : ℚ)))
      else (n, (0 : ℚ)))

/-- Values stored in an extinction-event dict. -/
inductive ValorEvento where
  | numero (n : Nat)
  | prim (p : Primario)
  | nomes (l : List String)
deriving DecidableEq, Repr

/-- The extinction event as the Python dict actually stored by
`remove_especie` / `remover_grupo_simultaneo`, with its exact keys. -/
def eventoDict (ev : Evento) : List (String × ValorEvento) :=
  [("passo", .numero ev.passo),
   ("extincao_primaria", .prim ev.extincaoPrimaria),
   ("extincoes_secundarias", .nomes ev.extincoesSecundarias),
   ("extincoes_totais", .numero ev.extincoesTotais),
   ("extintos", .nomes ev.extintos),
   ("restantes", .numero ev.restantes)]

/-- Python dict subscript access (raising `KeyError` when absent is modelled
by the callers receiving `none`). -/
def dictGet (d : List (String × ValorEvento)) (k : String) : Option ValorEvento :=
  match d.find? (fun p => p.1 == k) with
  | some p => some p.2
  | none => none

/-- The generator-sum of `get_resumo` line 349:
`sum(len(event['secondary_extinctions']) for event in historico)`.
A missing key raises `KeyError` at the first event. -/
def somaSecundariasResumo : List Evento → Except String Nat
  | [] => .ok 0
  | ev :: resto =>
    match dictGet (eventoDict ev) "secondary_extinctions" with
    | none => .error "KeyError: secondary_extinctions"
    | some (.nomes l) => (somaSecundariasResumo resto).map (fun s => l.length + s)
    | some _ => .error "TypeError"

/-- Summary record returned by `get_resumo` (lines 352-362). -/
structure Resumo where
  totalSteps : Nat
  totalPrimary : Nat
  totalSecondary : Nat
  totalExtinctions : Nat
  originalCount : Nat
  remainingCount : Nat
  robustez : ℚ
  basalCount : Nat
  historico : List Evento
deriving DecidableEq, Repr

/-- Method `get_resumo` (lines 341-362). -/
def getResumo (sim : Sim) : Except String Resumo :=
  match somaSecundariasResumo sim.historicoExtincoes with
  | .error e => .error e
  | .ok totalSec =>
    .ok { totalSteps := sim.passoAtual
          totalPrimary := sim.historicoExtincoes.length
          totalSecondary := totalSec
          totalExtinctions := sim.historicoExtincoes.length + totalSec
          originalCount := sim.grafoOriginal.vs.length
          remainingCount := sim.grafo.vs.length
          robustez := getRobustez sim
          basalCount := sim.especiesBasais.length
          historico := sim.historicoExtincoes }

/-- Cascade size of removing the vertex at index `i` alone from a fresh
simulation built on `g` (temporary simulation of line 376-380). -/
def tamanhoCascata (g : Graph) (i : Nat) : Nat :=
  match removeEspecie (initSim g) (Sum.inr i) with
  | .ok r => r.2.extincoesTotais
  | .error _ => 0

/-- Unsorted vulnerability scores (loop of lines 374-382): one (name,
cascade size) pair per vertex of the current working graph, in vertex
iteration order. -/
def pontuacoes (sim : Sim) : List (String × Nat) :=
  sim.grafo.vs.enum.map (fun p => (p.2, tamanhoCascata sim.grafo p.1))

/-- Stable descending comparison of line 385 (`sort(key=..., reverse=True)`,
Python list sort is stable and `reverse=True` keeps tie order). -/
def ordemDesc (a b : String × Nat) : Bool :=
  decide (b.2 ≤ a.2)

/-- Method `get_vulnerabilidade_ranking` (lines 364-387). -/
def getVulnerabilidadeRanking (sim : Sim) : List (String × Nat) :=
  (pontuacoes sim).mergeSort ordemDesc

/-- State effect of `get_vulnerabilidade_ranking`: the method body assigns
to no attribute of `self` (every candidate cascade runs on a temporary
simulation built over a copy of the working graph), so the caller's
simulation is returned unchanged alongside the ranking. -/
def getVulnerabilidadeRankingExec (sim : Sim) : Sim × List (String × Nat) :=
  (sim, getVulnerabilidadeRanking sim)

/-- Concrete 4-node chain A→B→C→D of the spec scenario (A basal). -/
def chainABCD : Graph :=
  ⟨["A", "B", "C", "D"], [("A", "B"), ("B", "C"), ("C", "D")]⟩

/-- Concrete single-vertex graph used by witnesses. -/
def grafoA : Graph :=
  ⟨["A"], []⟩

/-- Concrete two-producer graph P1→X, P2→X of the spec scenarios. -/
def grafoP1P2X : Graph :=
  ⟨["P1", "P2", "X"], [("P1", "X"), ("P2", "X")]⟩

/-- Status of node A after removing B from the chain (projection used to
settle the chain scenario). -/
def c1StatusA : Option Status :=
  match removeEspecie (initSim chainABCD) (Sum.inl "B") with
  | .ok r => getStatus r.1.estadosNos "A"
  | .error _ => none

/-- Extinction event produced by removing B from the chain A→B→C→D. -/
def c1EventoEsperado : Evento :=
  { passo := 1
    extincaoPrimaria := .um "B"
    extincoesSecundarias := ["C", "D"]
    extincoesTotais := 3
    extintos := ["B", "C", "D"]
    restantes := 1 }

/-- Simulation state after removing B from the chain A→B→C→D: only A
survives, and A is marked affected because it lost its outgoing edge. -/
def c1SimEsperado : Sim :=
  { grafoOriginal := chainABCD
    grafo := ⟨["A"], []⟩
    especiesBasais := ["A"]
    historicoExtincoes := [c1EventoEsperado]
    passoAtual := 1
    estadosNos := [("A", .afetado), ("B", .extintoPrimario),
                   ("C", .extintoSecundario), ("D", .extintoSecundario)]
    historicoEstados := [[("A", .afetado), ("B", .extintoPrimario),
                          ("C", .extintoSecundario), ("D", .extintoSecundario)]] }

/-! ### State-map lemmas -/

theorem getStatus_setStatus_self (m : StMap) (k : String) (v : Status) :
    getStatus (setStatus m k v) k = some v := by
  induction m with
  | nil => simp [setStatus, getStatus]
  | cons p resto ih =>
    by_cases h : p.1 = k
    · simp [setStatus, h, getStatus]
    · simp [setStatus, h, getStatus, ih]

theorem getStatus_setStatus_ne (m : StMap) {k j : String} (v : Status) (h : j ≠ k) :
    getStatus (setStatus m k v) j = getStatus m j := by
  induction m with
  | nil => simp [setStatus, getStatus, Ne.symm h]
  | cons p resto ih =>
    by_cases hp : p.1 = k
    · subst hp
      simp [setStatus, getStatus, Ne.symm h]
    · simp only [setStatus, if_neg hp, getStatus]
      by_cases hj : p.1 = j
      · simp [hj]
      · simp [hj, ih]

theorem getStatus_foldlSet_of_not_mem (l : List String) (v : Status) (m : StMap) (k : String)
    (h : k ∉ l) :
    getStatus (l.foldl (fun m2 n => setStatus m2 n v) m) k = getStatus m k := by
  induction l generalizing m with
  | nil => rfl
  | cons a t ih =>
    have h1 : k ≠ a := fun he => h (he ▸ List.mem_cons_self a t)
    have h2 : k ∉ t := fun he => h (List.mem_cons_of_mem a he)
    simp only [List.foldl_cons]
    rw [ih _ h2, getStatus_setStatus_ne _ _ h1]

theorem getStatus_foldlSet_of_mem (l : List String) (v : Status) (m : StMap) (k : String)
    (h : k ∈ l) :
    getStatus (l.foldl (fun m2 n => setStatus m2 n v) m) k = some v := by
  induction l generalizing m with
  | nil => cases h
  | cons a t ih =>
    simp only [List.foldl_cons]
    by_cases ht : k ∈ t
    · exact ih _ ht
    · have hk : k = a := by
        rcases List.mem_cons.mp h with h1 | h2
        · exact h1
        · exact absurd h2 ht
      subst hk
      rw [getStatus_foldlSet_of_not_mem _ _ _ _ ht, getStatus_setStatus_self]

theorem getStatus_foldlSet_cases (l : List String) (v : Status) (m : StMap) (k : String) :
    getStatus (l.foldl (fun m2 n => setStatus m2 n v) m) k = getStatus m k
    ∨ getStatus (l.foldl (fun m2 n => setStatus m2 n v) m) k = some v := by
  by_cases h : k ∈ l
  · exact Or.inr (getStatus_foldlSet_of_mem _ _ _ _ h)
  · exact Or.inl (getStatus_foldlSet_of_not_mem _ _ _ _ h)

theorem getStatus_allVivo_of_mem (g : Graph) (k : String) (h : k ∈ g.vs) :
    getStatus (allVivo g) k = some Status.vivo :=
  getStatus_foldlSet_of_mem _ _ _ _ h

theorem getStatus_allVivo_ne_sec (g : Graph) (k : String) :
    getStatus (allVivo g) k ≠ some Status.extintoSecundario := by
  rcases getStatus_foldlSet_cases g.vs Status.vivo [] k with h | h <;>
    rw [allVivo, h] <;> simp [getStatus]

theorem marcaAfetados_cons (a : String) (t : List String) (m : StMap) :
    marcaAfetados (a :: t) m
      = marcaAfetados t
          (if (getStatus m a == some Status.vivo) = true then setStatus m a Status.afetado else m) := by
  simp only [marcaAfetados, List.foldl_cons]

theorem getStatus_marcaAfetados_cases (vz : List String) (m : StMap) (k : String) :
    getStatus (marcaAfetados vz m) k = getStatus m k
    ∨ getStatus (marcaAfetados vz m) k = some Status.afetado := by
  induction vz generalizing m with
  | nil => exact Or.inl rfl
  | cons a t ih =>
    rw [marcaAfetados_cons]
    by_cases hc : (getStatus m a == some Status.vivo) = true
    · rw [if_pos hc]
      rcases ih (setStatus m a Status.afetado) with h | h
      · by_cases hk : k = a
        · subst hk
          rw [h, getStatus_setStatus_self]
          exact Or.inr rfl
        · rw [h, getStatus_setStatus_ne _ _ hk]
          exact Or.inl rfl
      · exact Or.inr h
    · rw [if_neg hc]
      exact ih m

/-! ### Graph deletion lemmas -/

theorem deleteVertex_vs_sublist (g : Graph) (n : String) :
    List.Sublist (deleteVertex g n).vs g.vs :=
  List.erase_sublist n g.vs

theorem deleteVertex_es_sublist (g : Graph) (n : String) :
    List.Sublist (deleteVertex g n).es g.es :=
  List.filter_sublist g.es

theorem foldlDelete_vs_sublist (l : List String) :
    ∀ g : Graph, List.Sublist (l.foldl deleteVertex g).vs g.vs := by
  induction l with
  | nil => intro g; exact List.Sublist.refl _
  | cons a t ih =>
    intro g
    simp only [List.foldl_cons]
    exact (ih (deleteVertex g a)).trans (deleteVertex_vs_sublist g a)

theorem foldlDelete_es_sublist (l : List String) :
    ∀ g : Graph, List.Sublist (l.foldl deleteVertex g).es g.es := by
  induction l with
  | nil => intro g; exact List.Sublist.refl _
  | cons a t ih =>
    intro g
    simp only [List.foldl_cons]
    exact (ih (deleteVertex g a)).trans (deleteVertex_es_sublist g a)

theorem foldlDelete_lt (l : List String) (g : Graph) (hne : l ≠ []) (hsub : l ⊆ g.vs) :
    ((l.foldl deleteVertex g).vs).length < g.vs.length := by
  cases l with
  | nil => exact absurd rfl hne
  | cons a t =>
    have ha : a ∈ g.vs := hsub (List.mem_cons_self a t)
    have hpos : 0 < g.vs.length := List.length_pos.mpr (List.ne_nil_of_mem ha)
    have h1 : ((deleteVertex g a).vs).length < g.vs.length := by
      show (g.vs.erase a).length < g.vs.length
      rw [List.length_erase_of_mem ha]
      omega
    simp only [List.foldl_cons]
    exact lt_of_le_of_lt (foldlDelete_vs_sublist t (deleteVertex g a)).length_le h1

theorem indegree_le_of_sublist {g1 g2 : Graph} (h : List.Sublist g1.es g2.es) (n : String) :
    indegree g1 n ≤ indegree g2 n :=
  (h.filter _).length_le

/-! ### Scan lemmas -/

theorem escaneiaPasso_cases (c : Bool) (basais : List String) (g : Graph)
    (acc : List String × StMap) (n : String) :
    escaneiaPasso c basais g acc n = acc
    ∨ (n ∉ basais ∧ escaneiaPasso c basais g acc n
        = (acc.1 ++ [n], setStatus acc.2 n Status.extintoSecundario)) := by
  unfold escaneiaPasso
  by_cases h1 : n ∈ basais
  · simp [h1]
  · by_cases h2 : (c && !(getStatus acc.2 n == some Status.vivo)) = true
    · simp [h1, h2]
    · by_cases h3 : indegree g n = 0
      · exact Or.inr ⟨h1, by simp [h1, h2, h3]⟩
      · simp [h1, h2, h3]

theorem escaneia_fold_subset (c : Bool) (basais : List String) (g : Graph) (l : List String) :
    ∀ acc : List String × StMap, acc.1 ⊆ g.vs → l ⊆ g.vs →
      (l.foldl (escaneiaPasso c basais g) acc).1 ⊆ g.vs := by
  induction l with
  | nil => intro acc h1 _; exact h1
  | cons a t ih =>
    intro acc h1 h2
    simp only [List.foldl_cons]
    refine ih _ ?_ (fun x hx => h2 (List.mem_cons_of_mem a hx))
    rcases escaneiaPasso_cases c basais g acc a with h | ⟨_, h⟩
    · rw [h]; exact h1
    · rw [h]
      intro x hx
      rcases List.mem_append.mp hx with hx | hx
      · exact h1 hx
      · rw [List.mem_singleton.mp hx]
        exact h2 (List.mem_cons_self a t)

theorem escaneia_subset (c : Bool) (basais : List String) (g : Graph) (e : StMap) :
    (escaneia c basais g e).1 ⊆ g.vs :=
  escaneia_fold_subset c basais g g.vs ([], e) (by simp) (fun _ hx => hx)

theorem escaneia_fold_basal (c : Bool) (basais : List String) (g : Graph) (b : String)
    (hb : b ∈ basais) (l : List String) :
    ∀ acc : List String × StMap, b ∉ acc.1 →
      b ∉ (l.foldl (escaneiaPasso c basais g) acc).1
      ∧ getStatus (l.foldl (escaneiaPasso c basais g) acc).2 b = getStatus acc.2 b := by
  induction l with
  | nil => intro acc h1; exact ⟨h1, rfl⟩
  | cons a t ih =>
    intro acc h1
    simp only [List.foldl_cons]
    rcases escaneiaPasso_cases c basais g acc a with h | ⟨hnb, h⟩
    · rw [h]; exact ih acc h1
    · have hne : b ≠ a := fun he => hnb (he ▸ hb)
      rw [h]
      have h2 : b ∉ acc.1 ++ [a] := by
        intro hx
        rcases List.mem_append.mp hx with hx | hx
        · exact h1 hx
        · exact hne (List.mem_singleton.mp hx)
      rcases ih (acc.1 ++ [a], setStatus acc.2 a Status.extintoSecundario) h2 with ⟨ih1, ih2⟩
      exact ⟨ih1, by rw [ih2]; exact getStatus_setStatus_ne _ _ hne⟩

theorem escaneia_basal (c : Bool) (basais : List String) (g : Graph) (e : StMap) (b : String)
    (hb : b ∈ basais) :
    b ∉ (escaneia c basais g e).1
    ∧ getStatus (escaneia c basais g e).2 b = getStatus e b :=
  escaneia_fold_basal c basais g b hb g.vs ([], e) (List.not_mem_nil b)

/-! ### Cascade-round lemmas -/

theorem rodada_g_eq (c : Bool) (basais : List String) (st : CascSt) :
    (rodada c basais st).g = st.aRemover.foldl deleteVertex st.g := rfl

theorem rodada_aRemover_eq (c : Bool) (basais : List String) (st : CascSt) :
    (rodada c basais st).aRemover
      = (escaneia c basais (st.aRemover.foldl deleteVertex st.g) st.estados).1 := rfl

theorem rodada_estados_eq (c : Bool) (basais : List String) (st : CascSt) :
    (rodada c basais st).estados
      = (escaneia c basais (st.aRemover.foldl deleteVertex st.g) st.estados).2 := rfl

theorem rodada_secundarios_eq (c : Bool) (basais : List String) (st : CascSt) :
    (rodada c basais st).secundarios
      = st.secundarios
        ++ (escaneia c basais (st.aRemover.foldl deleteVertex st.g) st.estados).1 := rfl

theorem rodada_aRemover_subset (c : Bool) (basais : List String) (st : CascSt) :
    (rodada c basais st).aRemover ⊆ (rodada c basais st).g.vs := by
  rw [rodada_aRemover_eq, rodada_g_eq]
  exact escaneia_subset c basais _ st.estados

theorem rodada_lt (c : Bool) (basais : List String) (st : CascSt)
    (hne : st.aRemover ≠ []) (hsub : st.aRemover ⊆ st.g.vs) :
    ((rodada c basais st).g.vs).length < st.g.vs.length := by
  rw [rodada_g_eq]
  exact foldlDelete_lt st.aRemover st.g hne hsub

theorem cascata_vs_sublist (c : Bool) (basais : List String) (n : Nat) :
    ∀ st : CascSt, List.Sublist (cascata c basais n st).g.vs st.g.vs := by
  induction n with
  | zero => intro st; exact List.Sublist.refl _
  | succ m ih =>
    intro st
    rw [cascata]
    by_cases h : st.aRemover = []
    · rw [if_pos h]
    · rw [if_neg h]
      refine (ih _).trans ?_
      rw [rodada_g_eq]
      exact foldlDelete_vs_sublist _ _

theorem cascata_es_sublist (c : Bool) (basais : List String) (n : Nat) :
    ∀ st : CascSt, List.Sublist (cascata c basais n st).g.es st.g.es := by
  induction n with
  | zero => intro st; exact List.Sublist.refl _
  | succ m ih =>
    intro st
    rw [cascata]
    by_cases h : st.aRemover = []
    · rw [if_pos h]
    · rw [if_neg h]
      refine (ih _).trans ?_
      rw [rodada_g_eq]
      exact foldlDelete_es_sublist _ _

theorem cascata_fix (c : Bool) (basais : List String) (n : Nat) :
    ∀ st : CascSt, st.aRemover ⊆ st.g.vs → st.g.vs.length ≤ n →
      (cascata c basais n st).aRemover = [] := by
  induction n with
  | zero =>
    intro st hsub hlen
    have hvs : st.g.vs = [] := List.length_eq_zero.mp (Nat.le_zero.mp hlen)
    have : st.aRemover = [] := by
      rw [← List.subset_nil, ← hvs]
      exact hsub
    simpa [cascata] using this
  | succ m ih =>
    intro st hsub hlen
    rw [cascata]
    by_cases h : st.aRemover = []
    · rw [if_pos h]; exact h
    · rw [if_neg h]
      refine ih _ (rodada_aRemover_subset c basais st) ?_
      have := rodada_lt c basais st h hsub
      omega

theorem cascata_basal (c : Bool) (basais : List String) (b : String) (hb : b ∈ basais) (n : Nat) :
    ∀ st : CascSt,
      getStatus st.estados b ≠ some Status.extintoSecundario → b ∉ st.secundarios →
      getStatus (cascata c basais n st).estados b ≠ some Status.extintoSecundario
      ∧ b ∉ (cascata c basais n st).secundarios := by
  induction n with
  | zero => intro st h1 h2; exact ⟨h1, h2⟩
  | succ m ih =>
    intro st h1 h2
    rw [cascata]
    by_cases h : st.aRemover = []
    · rw [if_pos h]; exact ⟨h1, h2⟩
    · rw [if_neg h]
      rcases escaneia_basal c basais (st.aRemover.foldl deleteVertex st.g) st.estados b hb with
        ⟨he1, he2⟩
      refine ih _ ?_ ?_
      · rw [rodada_estados_eq, he2]
        exact h1
      · rw [rodada_secundarios_eq]
        intro hx
        rcases List.mem_append.mp hx with hx | hx
        · exact h2 hx
        · exact he1 hx

/-! ### Basal-immunity invariant -/

/-- Invariant of every reachable simulation state over a construction graph
`g0`: the original graph and basal set are fixed, the working graph only
shrinks, and no basal species is ever recorded secondary-extinct in the
state table, the state history, or any extinction event. -/
structure InvBasal (g0 : Graph) (sim : Sim) : Prop where
  orig : sim.grafoOriginal = g0
  basais : sim.especiesBasais = basaisOf g0
  vsSub : sim.grafo.vs ⊆ g0.vs
  esSub : List.Sublist sim.grafo.es g0.es
  nodup : g0.vs.Nodup → sim.grafo.vs.Nodup
  estado : ∀ b ∈ basaisOf g0, getStatus sim.estadosNos b ≠ some Status.extintoSecundario
  snaps : ∀ b ∈ basaisOf g0, ∀ m ∈ sim.historicoEstados,
    getStatus m b ≠ some Status.extintoSecundario
  eventos : ∀ b ∈ basaisOf g0, ∀ ev ∈ sim.historicoExtincoes, b ∉ ev.extincoesSecundarias

theorem invBasal_initSim (g0 : Graph) : InvBasal g0 (initSim g0) where
  orig := rfl
  basais := rfl
  vsSub := fun _ h => h
  esSub := List.Sublist.refl _
  nodup := fun h => h
  estado := fun b _ => getStatus_allVivo_ne_sec g0 b
  snaps := fun _ _ m hm => absurd hm (List.not_mem_nil m)
  eventos := fun _ _ ev hev => absurd hev (List.not_mem_nil ev)

theorem invBasal_resetSim (g0 : Graph) (sim : Sim) (inv : InvBasal g0 sim) :
    InvBasal g0 (resetSim sim) where
  orig := inv.orig
  basais := by show basaisOf sim.grafoOriginal = basaisOf g0; rw [inv.orig]
  vsSub := by
    show sim.grafoOriginal.vs ⊆ g0.vs
    rw [inv.orig]
    exact fun x h => h
  esSub := by show List.Sublist sim.grafoOriginal.es g0.es; rw [inv.orig]
  nodup := by show g0.vs.Nodup → sim.grafoOriginal.vs.Nodup; rw [inv.orig]; exact id
  estado := fun b _ => by
    show getStatus (allVivo sim.grafoOriginal) b ≠ some Status.extintoSecundario
    exact getStatus_allVivo_ne_sec _ b
  snaps := fun _ _ m hm => absurd hm (List.not_mem_nil m)
  eventos := fun _ _ ev hev => absurd hev (List.not_mem_nil ev)

theorem invBasal_removeEspecieNucleo (g0 : Graph) (sim : Sim) (inv : InvBasal g0 sim)
    (nome : String) : InvBasal g0 (removeEspecieNucleo sim nome).1 := by
  simp only [removeEspecieNucleo]
  set st0 : CascSt :=
    { g := sim.grafo
      estados := setStatus sim.estadosNos nome .extintoPrimario
      vizinhos := insereTodos [] (neighborsOf sim.grafo nome)
      aRemover := [nome]
      secundarios := [] } with hst0
  set res := cascata false sim.especiesBasais sim.grafo.vs.length st0 with hres
  have hvs : List.Sublist res.g.vs sim.grafo.vs :=
    cascata_vs_sublist false sim.especiesBasais sim.grafo.vs.length st0
  have hes : List.Sublist res.g.es sim.grafo.es :=
    cascata_es_sublist false sim.especiesBasais sim.grafo.vs.length st0
  have hcasc : ∀ b ∈ basaisOf g0,
      getStatus res.estados b ≠ some Status.extintoSecundario ∧ b ∉ res.secundarios := by
    intro b hb
    have hb2 : b ∈ sim.especiesBasais := by rw [inv.basais]; exact hb
    refine cascata_basal false sim.especiesBasais b hb2 sim.grafo.vs.length st0 ?_
      (List.not_mem_nil b)
    show getStatus (setStatus sim.estadosNos nome .extintoPrimario) b
      ≠ some Status.extintoSecundario
    by_cases hbn : b = nome
    · subst hbn
      rw [getStatus_setStatus_self]
      simp
    · rw [getStatus_setStatus_ne _ _ hbn]
      exact inv.estado b hb
  have hfinal : ∀ b ∈ basaisOf g0,
      getStatus (marcaAfetados res.vizinhos res.estados) b ≠ some Status.extintoSecundario := by
    intro b hb
    rcases getStatus_marcaAfetados_cases res.vizinhos res.estados b with hm | hm
    · rw [hm]; exact (hcasc b hb).1
    · rw [hm]; simp
  constructor
  · exact inv.orig
  · exact inv.basais
  · exact fun x hx => inv.vsSub (hvs.subset hx)
  · exact hes.trans inv.esSub
  · exact fun h => List.Nodup.sublist hvs (inv.nodup h)
  · exact hfinal
  · intro b hb m hm
    rcases List.mem_append.mp hm with hm | hm
    · exact inv.snaps b hb m hm
    · rw [List.mem_singleton.mp hm]
      exact hfinal b hb
  · intro b hb ev hev
    rcases List.mem_append.mp hev with hev | hev
    · exact inv.eventos b hb ev hev
    · rw [List.mem_singleton.mp hev]
      exact (hcasc b hb).2

theorem marcados_fst (g : Graph) (l : List String) (e : StMap) (z : List String) :
    (l.foldl
        (fun acc n =>
          (setStatus acc.1 n Status.extintoPrimario, insereTodos acc.2 (neighborsOf g n)))
        (e, z)).1
      = l.foldl (fun m n => setStatus m n Status.extintoPrimario) e := by
  induction l generalizing e z with
  | nil => rfl
  | cons a t ih =>
    simp only [List.foldl_cons]
    exact ih _ _

theorem invBasal_removerGrupoNucleo (g0 : Graph) (sim : Sim) (inv : InvBasal g0 sim)
    (nomes : List String) : InvBasal g0 (removerGrupoNucleo sim nomes).1 := by
  simp only [removerGrupoNucleo]
  set marcados := nomes.foldl
    (fun acc n =>
      (setStatus acc.1 n Status.extintoPrimario, insereTodos acc.2 (neighborsOf sim.grafo n)))
    (sim.estadosNos, ([] : List String)) with hmarc
  set g1 := nomes.foldl deleteVertex sim.grafo with hg1
  set primeira := escaneia false sim.especiesBasais g1 marcados.1 with hprim
  set st0 : CascSt :=
    { g := g1
      estados := primeira.2
      vizinhos := marcados.2
      aRemover := primeira.1
      secundarios := primeira.1 } with hst0
  set res := cascata true sim.especiesBasais g1.vs.length st0 with hres
  have hg1vs : List.Sublist g1.vs sim.grafo.vs := foldlDelete_vs_sublist nomes sim.grafo
  have hg1es : List.Sublist g1.es sim.grafo.es := foldlDelete_es_sublist nomes sim.grafo
  have hvs : List.Sublist res.g.vs sim.grafo.vs :=
    (cascata_vs_sublist true sim.especiesBasais g1.vs.length st0).trans hg1vs
  have hes : List.Sublist res.g.es sim.grafo.es :=
    (cascata_es_sublist true sim.especiesBasais g1.vs.length st0).trans hg1es
  have hcasc : ∀ b ∈ basaisOf g0,
      getStatus res.estados b ≠ some Status.extintoSecundario ∧ b ∉ res.secundarios := by
    intro b hb
    have hb2 : b ∈ sim.especiesBasais := by rw [inv.basais]; exact hb
    have hmarc1 : getStatus marcados.1 b ≠ some Status.extintoSecundario := by
      rw [hmarc, marcados_fst]
      rcases getStatus_foldlSet_cases nomes Status.extintoPrimario sim.estadosNos b with h | h
      · rw [h]; exact inv.estado b hb
      · rw [h]; simp
    rcases escaneia_basal false sim.especiesBasais g1 marcados.1 b hb2 with ⟨hp1, hp2⟩
    refine cascata_basal true sim.especiesBasais b hb2 g1.vs.length st0 ?_ hp1
    show getStatus primeira.2 b ≠ some Status.extintoSecundario
    rw [hprim, hp2]
    exact hmarc1
  have hfinal : ∀ b ∈ basaisOf g0,
      getStatus (marcaAfetados res.vizinhos res.estados) b ≠ some Status.extintoSecundario := by
    intro b hb
    rcases getStatus_marcaAfetados_cases res.vizinhos res.estados b with hm | hm
    · rw [hm]; exact (hcasc b hb).1
    · rw [hm]; simp
  constructor
  · exact inv.orig
  · exact inv.basais
  · exact fun x hx => inv.vsSub (hvs.subset hx)
  · exact hes.trans inv.esSub
  · exact fun h => List.Nodup.sublist hvs (inv.nodup h)
  · exact hfinal
  · intro b hb m hm
    rcases List.mem_append.mp hm with hm | hm
    · exact inv.snaps b hb m hm
    · rw [List.mem_singleton.mp hm]
      exact hfinal b hb
  · intro b hb ev hev
    rcases List.mem_append.mp hev with hev | hev
    · exact inv.eventos b hb ev hev
    · rw [List.mem_singleton.mp hev]
      exact (hcasc b hb).2

theorem removerGrupo_fst_vazio (sim : Sim) (ids : List (String ⊕ Nat))
    (h : (resolveGrupo sim.grafo ids).1 = []) :
    (removerGrupoSimultaneo sim ids).1 = sim := by
  simp only [removerGrupoSimultaneo]
  rw [if_pos h]

theorem removerGrupo_fst_nucleo (sim : Sim) (ids : List (String ⊕ Nat))
    (h : ¬(resolveGrupo sim.grafo ids).1 = []) :
    (removerGrupoSimultaneo sim ids).1
      = (removerGrupoNucleo sim (resolveGrupo sim.grafo ids).1).1 := by
  simp only [removerGrupoSimultaneo]
  rw [if_neg h]

theorem invBasal_execOp (g0 : Graph) (sim : Sim) (inv : InvBasal g0 sim) (op : Op) :
    InvBasal g0 (execOp sim op) := by
  cases op with
  | remover ident =>
    simp only [execOp]
    cases hres : resolveIdent sim.grafo ident with
    | error e => simp only [removeEspecie, hres]; exact inv
    | ok nome =>
      simp only [removeEspecie, hres]
      exact invBasal_removeEspecieNucleo g0 sim inv nome
  | removerGrupo ids =>
    simp only [execOp]
    by_cases h : (resolveGrupo sim.grafo ids).1 = []
    · rw [removerGrupo_fst_vazio sim ids h]; exact inv
    · rw [removerGrupo_fst_nucleo sim ids h]
      exact invBasal_removerGrupoNucleo g0 sim inv _
  | reiniciar =>
    simp only [execOp]
    exact invBasal_resetSim g0 sim inv

theorem invBasal_execOps (g0 : Graph) (ops : List Op) : InvBasal g0 (execOps g0 ops) := by
  suffices h : ∀ (l : List Op) (sim : Sim), InvBasal g0 sim → InvBasal g0 (l.foldl execOp sim) by
    exact h ops (initSim g0) (invBasal_initSim g0)
  intro l
  induction l with
  | nil => exact fun sim h => h
  | cons a t ih => exact fun sim h => ih _ (invBasal_execOp g0 sim h a)

/-! ### Resolution and removal lemmas -/

theorem resolveIdent_nome_nao (g : Graph) (nome : String) (h : nome ∉ g.vs) :
    resolveIdent g (Sum.inl nome) = Except.error (ErroRemocao.naoEncontrada nome) := by
  simp only [resolveIdent]
  rw [if_neg h]

theorem resolveIdent_indice_nao (g : Graph) (i : Nat) (h : g.vs.length ≤ i) :
    resolveIdent g (Sum.inr i) = Except.error (ErroRemocao.indiceInvalido i) := by
  simp only [resolveIdent]
  rw [dif_neg (by omega)]

theorem removeEspecie_mem (sim : Sim) (b : String) (hb : b ∈ sim.grafo.vs) :
    removeEspecie sim (Sum.inl b) = Except.ok (removeEspecieNucleo sim b) := by
  simp only [removeEspecie, resolveIdent]
  rw [if_pos hb]

theorem nucleo_saiDoGrafo (sim : Sim) (b : String) (hb : b ∈ sim.grafo.vs)
    (hnd : sim.grafo.vs.Nodup) : b ∉ (removeEspecieNucleo sim b).1.grafo.vs := by
  show b ∉ (cascata false sim.especiesBasais sim.grafo.vs.length
    { g := sim.grafo
      estados := setStatus sim.estadosNos b .extintoPrimario
      vizinhos := insereTodos [] (neighborsOf sim.grafo b)
      aRemover := [b]
      secundarios := [] }).g.vs
  obtain ⟨m, hm⟩ : ∃ m, sim.grafo.vs.length = m + 1 :=
    ⟨sim.grafo.vs.length - 1, by
      have := List.length_pos.mpr (List.ne_nil_of_mem hb)
      omega⟩
  rw [hm, cascata]
  rw [if_neg (by simp)]
  intro hmem
  have hsub := (cascata_vs_sublist false sim.especiesBasais m _).subset hmem
  rw [rodada_g_eq] at hsub
  simp only [List.foldl_cons, List.foldl_nil] at hsub
  exact (List.Nodup.not_mem_erase hnd) hsub

/-! ### Grouped-resolution characterization -/

theorem resolveGrupo_fold (g : Graph) (ids : List (String ⊕ Nat)) :
    ∀ acc : List String × List String,
      ids.foldl (resolvePassoGrupo g) acc
        = (acc.1 ++ ids.filterMap (fun ident =>
              match ident with
              | Sum.inl nome => if nome ∈ g.vs then some nome else none
              | Sum.inr i => g.vs[i]?),
           acc.2 ++ ids.filterMap (fun ident =>
              match ident with
              | Sum.inl nome =>
                if nome ∈ g.vs then none else some (avisoNaoEncontrada nome)
              | Sum.inr _ => none)) := by
  induction ids with
  | nil => intro acc; simp
  | cons a t ih =>
    intro acc
    cases a with
    | inl nome =>
      simp only [List.foldl_cons, List.filterMap_cons, resolvePassoGrupo]
      by_cases h : nome ∈ g.vs
      · simp only [h, if_true]
        rw [ih]
        simp
      · simp only [h, if_false]
        rw [ih]
        simp
    | inr i =>
      simp only [List.foldl_cons, List.filterMap_cons, resolvePassoGrupo]
      by_cases h : i < g.vs.length
      · rw [dif_pos h, ih, List.getElem?_eq_getElem h]
        simp [List.get_eq_getElem]
      · rw [dif_neg h, ih, List.getElem?_eq_none (by omega)]

theorem resolveGrupo_eq (g : Graph) (ids : List (String ⊕ Nat)) :
    resolveGrupo g ids
      = (ids.filterMap (fun ident =>
            match ident with
            | Sum.inl nome => if nome ∈ g.vs then some nome else none
            | Sum.inr i => g.vs[i]?),
         ids.filterMap (fun ident =>
            match ident with
            | Sum.inl nome =>
              if nome ∈ g.vs then none else some (avisoNaoEncontrada nome)
            | Sum.inr _ => none)) := by
  have h := resolveGrupo_fold g ids ([], [])
  simpa [resolveGrupo] using h

theorem removerGrupo_avisos_eq (sim : Sim) (ids : List (String ⊕ Nat)) :
    (removerGrupoSimultaneo sim ids).2.2 = (resolveGrupo sim.grafo ids).2 := by
  simp only [removerGrupoSimultaneo]
  split
  · rfl
  · rfl

/-! ### Ranking-order lemmas -/

theorem ordemDesc_trans : ∀ a b c : String × Nat, ordemDesc a b → ordemDesc b c → ordemDesc a c := by
  intro a b c h1 h2
  simp only [ordemDesc, decide_eq_true_eq] at *
  omega

theorem ordemDesc_total : ∀ a b : String × Nat, ordemDesc a b || ordemDesc b a := by
  intro a b
  simp only [ordemDesc, Bool.or_eq_true, decide_eq_true_eq]
  omega

theorem pontuacoes_map_fst (sim : Sim) : (pontuacoes sim).map Prod.fst = sim.grafo.vs := by
  simp only [pontuacoes, List.map_map]
  have h : (Prod.fst ∘ fun p : Nat × String => (p.2, tamanhoCascata sim.grafo p.1))
      = Prod.snd := rfl
  rw [h, List.enum_map_snd]

/-! ### Rounding lemmas -/

theorem round3_mem_unit (q : ℚ) (h0 : 0 ≤ q) (h1 : q ≤ 1) :
    0 ≤ round3 q ∧ round3 q ≤ 1 := by
  have hr : (0 : ℤ) ≤ round (q * 1000) ∧ round (q * 1000) ≤ 1000 := by
    rw [round_eq]
    constructor
    · apply Int.le_floor.mpr
      push_cast
      nlinarith
    · have hlt : ⌊q * 1000 + 1 / 2⌋ < 1001 := by
        apply Int.floor_lt.mpr
        push_cast
        nlinarith
      omega
  unfold round3
  constructor
  · apply div_nonneg _ (by norm_num)
    exact_mod_cast hr.1
  · rw [div_le_one (by norm_num)]
    exact_mod_cast hr.2

/-! ### Claim theorems -/

/-- C1 (counterexample): in the 4-node chain A→B→C→D, after
`remove_especie('B')` the status of A is `'afetado'`, not unaffected —
the code marks every still-alive neighbor of a removed node (in either
edge direction) as affected, and A lost its outgoing edge A→B. -/
theorem c1_contraexemplo : c1StatusA = some Status.afetado := by decide

/-- C1 (amended): removing B from the chain A→B→C→D yields an event with
primary extinction B, secondary extinctions [C, D] in cascade order and
total 3; afterwards A is the only node left in the working graph, but its
status in the node-state table is `'afetado'` (it lost its outgoing edge
to B), not unaffected. -/
theorem c1_cadeia :
    (removeEspecie (initSim chainABCD) (Sum.inl "B")).toOption
      = some (c1SimEsperado, c1EventoEsperado) := by decide

/-- C2: for every input graph (with distinct species names) and every
sequence of operations, no species of the basal set is ever recorded
secondary-extinct — neither in the current node-state table, nor in any
state-history snapshot, nor in any extinction event — while a basal
species still present in the working graph can be removed as a primary
target, and that removal takes effect. -/
theorem c2_imunidade_basal (g : Graph) (ops : List Op) (hnd : g.vs.Nodup) :
    ∀ b ∈ (execOps g ops).especiesBasais,
      (getStatus (execOps g ops).estadosNos b ≠ some Status.extintoSecundario
        ∧ (∀ m ∈ (execOps g ops).historicoEstados,
            getStatus m b ≠ some Status.extintoSecundario)
        ∧ ∀ ev ∈ (execOps g ops).historicoExtincoes, b ∉ ev.extincoesSecundarias)
      ∧ (b ∈ (execOps g ops).grafo.vs →
          removeEspecie (execOps g ops) (Sum.inl b)
            = Except.ok (removeEspecieNucleo (execOps g ops) b)
          ∧ b ∉ (removeEspecieNucleo (execOps g ops) b).1.grafo.vs) := by
  intro b hbmem
  have inv := invBasal_execOps g ops
  have hb : b ∈ basaisOf g := by
    rw [inv.basais] at hbmem
    exact hbmem
  refine ⟨⟨inv.estado b hb, inv.snaps b hb, inv.eventos b hb⟩, fun hmem => ?_⟩
  exact ⟨removeEspecie_mem _ b hmem, nucleo_saiDoGrafo _ b hmem (inv.nodup hnd)⟩

theorem c2_imunidade_basal_witness :
    chainABCD.vs.Nodup
    ∧ "A" ∈ (execOps chainABCD [Op.remover (Sum.inl "B")]).especiesBasais
    ∧ getStatus (execOps chainABCD [Op.remover (Sum.inl "B")]).estadosNos "A"
        ≠ some Status.extintoSecundario :=
  ⟨by decide, by decide,
    ((c2_imunidade_basal chainABCD [Op.remover (Sum.inl "B")] (by decide)) "A"
      (by decide)).1.1⟩

/-- C3 (counterexample): a grouped removal containing the out-of-range
index 5 on a 1-node graph leaves the batch running (the valid name A is
removed as primary) but produces no warning at all for the silently
skipped index — refuting that every unresolvable identifier is skipped
with a recoverable warning. -/
theorem c3_contraexemplo :
    (removerGrupoSimultaneo (initSim grafoA) [Sum.inr 5, Sum.inl "A"]).2.2 = []
    ∧ ((removerGrupoSimultaneo (initSim grafoA) [Sum.inr 5, Sum.inl "A"]).2.1).toOption
        = some { passo := 1
                 extincaoPrimaria := Primario.grupo ["A"]
                 extincoesSecundarias := []
                 extincoesTotais := 1
                 extintos := ["A"]
                 restantes := 0 } := by decide

/-- C3 (amended): in grouped removal every unresolvable *name* is skipped
with exactly one recoverable warning and the batch continues, whereas an
out-of-range *integer index* is skipped silently, producing no warning;
the resolved primaries are exactly the in-graph names and in-range
indices, in request order. -/
theorem c3_avisos (sim : Sim) (ids : List (String ⊕ Nat)) :
    (removerGrupoSimultaneo sim ids).2.2
      = ids.filterMap (fun ident =>
          match ident with
          | Sum.inl nome =>
            if nome ∈ sim.grafo.vs then none else some (avisoNaoEncontrada nome)
          | Sum.inr _ => none)
    ∧ (resolveGrupo sim.grafo ids).1
      = ids.filterMap (fun ident =>
          match ident with
          | Sum.inl nome => if nome ∈ sim.grafo.vs then some nome else none
          | Sum.inr i => sim.grafo.vs[i]?) := by
  constructor
  · rw [removerGrupo_avisos_eq, resolveGrupo_eq]
  · rw [resolveGrupo_eq]

/-- C4: a single removal whose identifier does not resolve — a name not in
the current working graph, or an index at or beyond the node count — fails
with the corresponding error before any mutation: the resulting simulation
state (graph, state table, histories, step counter) is exactly the one
before the call. -/
theorem c4_remocao_atomica (sim : Sim) :
    (∀ nome : String, nome ∉ sim.grafo.vs →
        removeEspecie sim (Sum.inl nome) = Except.error (ErroRemocao.naoEncontrada nome)
        ∧ execOp sim (Op.remover (Sum.inl nome)) = sim)
    ∧ ∀ i : Nat, sim.grafo.vs.length ≤ i →
        removeEspecie sim (Sum.inr i) = Except.error (ErroRemocao.indiceInvalido i)
        ∧ execOp sim (Op.remover (Sum.inr i)) = sim := by
  constructor
  · intro nome h
    have hres := resolveIdent_nome_nao sim.grafo nome h
    exact ⟨by simp only [removeEspecie, hres],
      by simp only [execOp, removeEspecie, hres]⟩
  · intro i h
    have hres := resolveIdent_indice_nao sim.grafo i h
    exact ⟨by simp only [removeEspecie, hres],
      by simp only [execOp, removeEspecie, hres]⟩

theorem c4_remocao_atomica_witness :
    ("Z" ∉ (initSim grafoA).grafo.vs
      ∧ removeEspecie (initSim grafoA) (Sum.inl "Z")
          = Except.error (ErroRemocao.naoEncontrada "Z")
      ∧ execOp (initSim grafoA) (Op.remover (Sum.inl "Z")) = initSim grafoA)
    ∧ ((initSim grafoA).grafo.vs.length ≤ 3
      ∧ removeEspecie (initSim grafoA) (Sum.inr 3)
          = Except.error (ErroRemocao.indiceInvalido 3)
      ∧ execOp (initSim grafoA) (Op.remover (Sum.inr 3)) = initSim grafoA) :=
  ⟨⟨by decide, ((c4_remocao_atomica (initSim grafoA)).1 "Z" (by decide)).1,
      ((c4_remocao_atomica (initSim grafoA)).1 "Z" (by decide)).2⟩,
    ⟨by decide, ((c4_remocao_atomica (initSim grafoA)).2 3 (by decide)).1,
      ((c4_remocao_atomica (initSim grafoA)).2 3 (by decide)).2⟩⟩

/-- C5: the cascade fixed-point loop of both removal methods terminates:
whenever the candidate set of a round is non-empty (and consists of
current vertices) the node count strictly decreases, and consequently
after at most the current node count of rounds the candidate set is empty
(the fixed point is reached). -/
theorem c5_terminacao (checaVivo : Bool) (basais : List String) (st : CascSt)
    (h : st.aRemover ⊆ st.g.vs) :
    (st.aRemover ≠ [] → ((rodada checaVivo basais st).g.vs).length < st.g.vs.length)
    ∧ ∀ n, st.g.vs.length ≤ n → (cascata checaVivo basais n st).aRemover = [] :=
  ⟨fun hne => rodada_lt checaVivo basais st hne h,
    fun n hn => cascata_fix checaVivo basais n st h hn⟩

theorem c5_terminacao_witness :
    ({ g := grafoA, estados := [], vizinhos := [], aRemover := ["A"], secundarios := [] }
        : CascSt).aRemover
      ⊆ ({ g := grafoA, estados := [], vizinhos := [], aRemover := ["A"], secundarios := [] }
        : CascSt).g.vs
    ∧ (cascata false [] 1
        { g := grafoA, estados := [], vizinhos := [], aRemover := ["A"],
          secundarios := [] }).aRemover = [] :=
  ⟨by decide,
    (c5_terminacao false []
      { g := grafoA, estados := [], vizinhos := [], aRemover := ["A"], secundarios := [] }
      (by decide)).2 1 (by decide)⟩

/-- C6: `get_vulnerabilidade_ranking` leaves the caller's simulation state
unchanged (the method writes no attribute; each candidate cascade runs on
a temporary simulation over a fresh copy of the working graph), and its
result depends only on the current working graph. -/
theorem c6_ranking_preserva_estado (sim : Sim) :
    (getVulnerabilidadeRankingExec sim).1 = sim
    ∧ ∀ sim2 : Sim, sim2.grafo = sim.grafo →
        (getVulnerabilidadeRankingExec sim2).2 = (getVulnerabilidadeRankingExec sim).2 := by
  refine ⟨rfl, fun sim2 h => ?_⟩
  show getVulnerabilidadeRanking sim2 = getVulnerabilidadeRanking sim
  simp only [getVulnerabilidadeRanking, pontuacoes, h]

theorem c6_ranking_preserva_estado_witness :
    ({ initSim grafoA with passoAtual := 7 } : Sim).grafo = (initSim grafoA).grafo
    ∧ (getVulnerabilidadeRankingExec { initSim grafoA with passoAtual := 7 }).2
        = (getVulnerabilidadeRankingExec (initSim grafoA)).2 :=
  ⟨rfl, (c6_ranking_preserva_estado (initSim grafoA)).2 _ rfl⟩

/-- C7: the vulnerability ranking is a permutation of the per-vertex
(name, cascade-size) scores — one pair per vertex of the working graph,
with the cascade size of removing that vertex alone from a fresh copy —
its names are a permutation of the working graph vertices, it is sorted
descending by cascade size, and pairs of equal cascade size keep their
encounter order (the stable-sort filter characterization). -/
theorem c7_ranking_ordenado (sim : Sim) :
    List.Perm (getVulnerabilidadeRanking sim) (pontuacoes sim)
    ∧ List.Perm ((getVulnerabilidadeRanking sim).map Prod.fst) sim.grafo.vs
    ∧ List.Pairwise (fun a b : String × Nat => b.2 ≤ a.2) (getVulnerabilidadeRanking sim)
    ∧ ∀ k : Nat, (getVulnerabilidadeRanking sim).filter (fun p => p.2 == k)
        = (pontuacoes sim).filter (fun p => p.2 == k) := by
  have hperm : List.Perm (getVulnerabilidadeRanking sim) (pontuacoes sim) :=
    List.mergeSort_perm (pontuacoes sim) ordemDesc
  refine ⟨hperm, ?_, ?_, ?_⟩
  · have h := hperm.map Prod.fst
    rw [pontuacoes_map_fst] at h
    exact h
  · have hs := List.sorted_mergeSort ordemDesc_trans ordemDesc_total (pontuacoes sim)
    exact hs.imp (fun {a b} h => by simpa [ordemDesc] using h)
  · intro k
    have hcall : ∀ p ∈ (pontuacoes sim).filter (fun p => p.2 == k), (p.2 == k) = true :=
      fun p hp => (List.mem_filter.mp hp).2
    have hcpair :
        List.Pairwise (fun a b => ordemDesc a b = true)
          ((pontuacoes sim).filter (fun p => p.2 == k)) := by
      apply List.pairwise_of_forall_mem_list
      intro a ha b hb
      have h1 := hcall a ha
      have h2 := hcall b hb
      simp only [beq_iff_eq] at h1 h2
      simp [ordemDesc, h1, h2]
    have hsub :
        List.Sublist ((pontuacoes sim).filter (fun p => p.2 == k))
          (getVulnerabilidadeRanking sim) :=
      List.sublist_mergeSort ordemDesc_trans ordemDesc_total hcpair (List.filter_sublist _)
    have hfsub :
        List.Sublist ((pontuacoes sim).filter (fun p => p.2 == k))
          ((getVulnerabilidadeRanking sim).filter (fun p => p.2 == k)) := by
      have h := hsub.filter (fun p => p.2 == k)
      rwa [List.filter_eq_self.mpr hcall] at h
    have hlen :
        ((pontuacoes sim).filter (fun p => p.2 == k)).length
          = ((getVulnerabilidadeRanking sim).filter (fun p => p.2 == k)).length :=
      ((hperm.filter (fun p => p.2 == k)).length_eq).symm
    exact (hfsub.eq_of_length hlen).symm

/-- C8: after any sequence of operations, `reset` restores exactly the
construction-time state on the original graph: the whole simulation record
equals a freshly constructed one, robustness is 1 for a non-empty graph,
every original node is `'vivo'`, both histories are empty, the step counter
is 0, and the diet-loss and summary queries coincide with those of a fresh
simulation. -/
theorem c8_reinicio_idempotente (g : Graph) (ops : List Op) :
    resetSim (execOps g ops) = initSim g
    ∧ (g.vs ≠ [] → getRobustez (resetSim (execOps g ops)) = 1)
    ∧ (∀ n ∈ g.vs, getStatus (resetSim (execOps g ops)).estadosNos n = some Status.vivo)
    ∧ (resetSim (execOps g ops)).historicoExtincoes = []
    ∧ (resetSim (execOps g ops)).historicoEstados = []
    ∧ (resetSim (execOps g ops)).passoAtual = 0
    ∧ calcularPerdaDieta (resetSim (execOps g ops)) = calcularPerdaDieta (initSim g)
    ∧ getResumo (resetSim (execOps g ops)) = getResumo (initSim g) := by
  have horig := (invBasal_execOps g ops).orig
  have h1 : resetSim (execOps g ops) = initSim g := by
    simp only [resetSim, initSim, horig]
  refine ⟨h1, ?_, ?_, ?_, ?_, ?_, ?_, ?_⟩
  · intro hne
    rw [h1]
    have hpos : 0 < g.vs.length := List.length_pos.mpr hne
    show (if 0 < g.vs.length then ((g.vs.length : ℚ)) / (g.vs.length : ℚ) else 0) = 1
    rw [if_pos hpos]
    exact div_self (Nat.cast_ne_zero.mpr hpos.ne')
  · intro n hn
    rw [h1]
    exact getStatus_allVivo_of_mem g n hn
  · rw [h1]; rfl
  · rw [h1]; rfl
  · rw [h1]; rfl
  · rw [h1]
  · rw [h1]

theorem c8_reinicio_idempotente_witness :
    grafoA.vs ≠ []
    ∧ getRobustez (resetSim (execOps grafoA [Op.remover (Sum.inl "A")])) = 1
    ∧ "A" ∈ grafoA.vs
    ∧ getStatus (resetSim (execOps grafoA [Op.remover (Sum.inl "A")])).estadosNos "A"
        = some Status.vivo :=
  ⟨by decide, (c8_reinicio_idempotente grafoA [Op.remover (Sum.inl "A")]).2.1 (by decide),
    by decide,
    (c8_reinicio_idempotente grafoA [Op.remover (Sum.inl "A")]).2.2.1 "A" (by decide)⟩

/-- C9: after any sequence of operations, `calcular_perda_dieta` reports
exactly the non-basal nodes of the current working graph (in vertex
order); a node with positive original in-degree gets
`round3 (1 - current/original)` and a non-basal node with original
in-degree 0 gets 0.0; and every reported value lies in [0, 1]. -/
theorem c9_perda_dieta (g : Graph) (ops : List Op) :
    ((calcularPerdaDieta (execOps g ops)).map Prod.fst
      = (execOps g ops).grafo.vs.filter (fun n => n ∉ (execOps g ops).especiesBasais))
    ∧ (∀ n ∈ (execOps g ops).grafo.vs, n ∉ (execOps g ops).especiesBasais →
        (0 < indegree g n →
          (n, round3 (1 - (indegree (execOps g ops).grafo n : ℚ) / (indegree g n : ℚ)))
            ∈ calcularPerdaDieta (execOps g ops))
        ∧ (indegree g n = 0 → (n, (0 : ℚ)) ∈ calcularPerdaDieta (execOps g ops)))
    ∧ ∀ p ∈ calcularPerdaDieta (execOps g ops), 0 ≤ p.2 ∧ p.2 ≤ 1 := by
  have inv := invBasal_execOps g ops
  have hgo : ∀ n ∈ (execOps g ops).grafo.vs,
      grausOriginais (execOps g ops) n = indegree g n := by
    intro n hn
    unfold grausOriginais
    rw [inv.orig, if_pos (inv.vsSub hn)]
  refine ⟨?_, ?_, ?_⟩
  · simp only [calcularPerdaDieta, List.map_map]
    have h : (Prod.fst ∘ fun n =>
        if 0 < grausOriginais (execOps g ops) n then
          (n, round3 (1 - (indegree (execOps g ops).grafo n : ℚ)
            / (grausOriginais (execOps g ops) n : ℚ)))
        else (n, (0 : ℚ))) = id := by
      funext n
      by_cases hc : 0 < grausOriginais (execOps g ops) n <;> simp [hc]
    rw [h, List.map_id]
  · intro n hn hnb
    have hmemf : n ∈ (execOps g ops).grafo.vs.filter
        (fun x => x ∉ (execOps g ops).especiesBasais) := by
      rw [List.mem_filter]
      exact ⟨hn, by simpa using hnb⟩
    constructor
    · intro hpos
      simp only [calcularPerdaDieta, List.mem_map]
      refine ⟨n, hmemf, ?_⟩
      rw [hgo n hn, if_pos hpos]
    · intro hzero
      simp only [calcularPerdaDieta, List.mem_map]
      refine ⟨n, hmemf, ?_⟩
      rw [hgo n hn, if_neg (by omega)]
  · intro p hp
    simp only [calcularPerdaDieta, List.mem_map] at hp
    obtain ⟨n, hnf, hpe⟩ := hp
    have hn : n ∈ (execOps g ops).grafo.vs := (List.mem_filter.mp hnf).1
    by_cases hc : 0 < grausOriginais (execOps g ops) n
    · rw [if_pos hc] at hpe
      have hgo2 : grausOriginais (execOps g ops) n = indegree g n := hgo n hn
      have hle : indegree (execOps g ops).grafo n ≤ indegree g n :=
        indegree_le_of_sublist inv.esSub n
      have hd0 : (0 : ℚ) < (grausOriginais (execOps g ops) n : ℚ) := by exact_mod_cast hc
      have hdiv0 : 0 ≤ (indegree (execOps g ops).grafo n : ℚ)
          / (grausOriginais (execOps g ops) n : ℚ) :=
        div_nonneg (by positivity) (le_of_lt hd0)
      have hdiv1 : (indegree (execOps g ops).grafo n : ℚ)
          / (grausOriginais (execOps g ops) n : ℚ) ≤ 1 := by
        rw [div_le_one hd0, hgo2]
        exact_mod_cast hle
      have hq0 : 0 ≤ 1 - (indegree (execOps g ops).grafo n : ℚ)
          / (grausOriginais (execOps g ops) n : ℚ) := by linarith
      have hq1 : 1 - (indegree (execOps g ops).grafo n : ℚ)
          / (grausOriginais (execOps g ops) n : ℚ) ≤ 1 := by linarith
      rcases round3_mem_unit _ hq0 hq1 with ⟨hb1, hb2⟩
      rw [← hpe]
      exact ⟨hb1, hb2⟩
    · rw [if_neg hc] at hpe
      rw [← hpe]
      norm_num

theorem c9_perda_dieta_witness :
    ("X" ∈ (execOps grafoP1P2X [Op.remover (Sum.inl "P1")]).grafo.vs
      ∧ "X" ∉ (execOps grafoP1P2X [Op.remover (Sum.inl "P1")]).especiesBasais
      ∧ 0 < indegree grafoP1P2X "X")
    ∧ ("X", round3 (1 - (indegree (execOps grafoP1P2X [Op.remover (Sum.inl "P1")]).grafo "X" : ℚ)
          / (indegree grafoP1P2X "X" : ℚ)))
        ∈ calcularPerdaDieta (execOps grafoP1P2X [Op.remover (Sum.inl "P1")]) :=
  ⟨⟨by decide, by decide, by decide⟩,
    ((c9_perda_dieta grafoP1P2X [Op.remover (Sum.inl "P1")]).2.1 "X" (by decide)
      (by decide)).1 (by decide)⟩

/-- C10: whenever the extinction history holds at least one event,
`get_resumo` fails with a `KeyError` — events are stored under the key
`'extincoes_secundarias'` but the summary reads
`event['secondary_extinctions']` — while with an empty history it returns
normally with zero primary, secondary and total extinction counts. -/
theorem c10_resumo_keyerror (sim : Sim) :
    (sim.historicoExtincoes ≠ [] →
      getResumo sim = Except.error "KeyError: secondary_extinctions")
    ∧ (sim.historicoExtincoes = [] →
      getResumo sim = Except.ok
        { totalSteps := sim.passoAtual
          totalPrimary := 0
          totalSecondary := 0
          totalExtinctions := 0
          originalCount := sim.grafoOriginal.vs.length
          remainingCount := sim.grafo.vs.length
          robustez := getRobustez sim
          basalCount := sim.especiesBasais.length
          historico := [] }) := by
  constructor
  · intro h
    cases hist : sim.historicoExtincoes with
    | nil => exact absurd hist h
    | cons ev resto =>
      have hnone : dictGet (eventoDict ev) "secondary_extinctions" = none := rfl
      simp only [getResumo, hist, somaSecundariasResumo, hnone]
  · intro h
    simp only [getResumo, h, somaSecundariasResumo, List.length_nil]

theorem c10_resumo_keyerror_witness :
    (execOp (initSim chainABCD) (Op.remover (Sum.inl "B"))).historicoExtincoes ≠ []
    ∧ getResumo (execOp (initSim chainABCD) (Op.remover (Sum.inl "B")))
        = Except.error "KeyError: secondary_extinctions" :=
  ⟨by decide, (c10_resumo_keyerror _).1 (by decide)⟩
